import Mathlib

/-!
Shallow embedding of the emi-transport repository (Go) and proofs about it.

The embedding covers, from the source:
  * src/http.go  — the HttpClient command client: default configuration
    (NewHttpClient), the retry loop of Post (attempt counting, backoff
    delay with jitter, cancellation during the inter-attempt delay) and
    the response handling tail of doPost (status-code gate, no-content
    and nil-slot shortcut, HttpResult envelope unwrapping).
  * src/bot.go   — the Bot event dispatcher (event registries, handler
    registration, handleEvent dispatch loop, Wait) and the
    WebsocketEventSource (Open on an already-open connection, Wait, the
    decode step of the receive loop).
  * src/unnamed/part_001 — the SegmentBuilder (Append, Build).

Wire-level payloads (JSON bytes) are modelled as String, channels as Nat
identities, and JSON decoding as explicit decoder functions passed in,
so that control flow stays exactly the source's.
-/

namespace EmiTransport

/-! ### src/http.go: the command client -/

/-- Signed 64-bit two's-complement wraparound, the semantics of Go's
int64 arithmetic (time.Duration is an int64 nanosecond count). -/
def wrap64 (x : Int) : Int := (x + 2 ^ 63) % 2 ^ 64 - 2 ^ 63

/-- The retry configuration of HttpClient (src/http.go lines 23-36).
Durations are int64 nanosecond counts, as Go's time.Duration. The
logger, gateway, token and embedded http.Client (network effects) are
not part of the retry arithmetic and are omitted. -/
structure HttpClient where
  maxRetries : Int
  baseRetryDelay : Int
  maxRetryDelay : Int
  maxRetryJitter : Int

/-- One millisecond in nanoseconds (Go time.Millisecond). -/
def millisecond : Int := 1000000

/-- One second in nanoseconds (Go time.Second). -/
def second : Int := 1000000000

/-- The defaults installed by NewHttpClient (src/http.go lines 38-55):
maxRetries 5, baseRetryDelay 100ms, maxRetryDelay 5s, maxRetryJitter
100ms. -/
def NewHttpClient : HttpClient :=
  { maxRetries := 5
    baseRetryDelay := 100 * millisecond
    maxRetryDelay := 5 * second
    maxRetryJitter := 100 * millisecond }

/-- The inter-attempt delay computed by Post (src/http.go lines 106-110):
min(baseRetryDelay*(1 shl attempt) + jitter, maxRetryDelay), every
intermediate step in int64 arithmetic. The jitter argument stands for
the value drawn by rand.Int64N(int64(maxRetryJitter)), which lies in
[0, maxRetryJitter). -/
def retryDelay (h : HttpClient) (attempt : Nat) (jitter : Int) : Int :=
  min (wrap64 (wrap64 (h.baseRetryDelay * wrap64 (2 ^ attempt)) + jitter)) h.maxRetryDelay

/-- One iteration of the retry loop of Post, as the environment drives it:
attemptOk records whether this iteration's doPost call returned nil, and
cancelled whether ctx.Done() fired before the delay timer in the select
that follows a failed attempt (src/http.go lines 114-118). -/
structure PostIter where
  attemptOk : Bool
  cancelled : Bool
  deriving DecidableEq

/-- A failing, uncancelled iteration. -/
def failIter : PostIter := ⟨false, false⟩

/-- A failing iteration during whose backoff delay the context is
cancelled. -/
def cancelIter : PostIter := ⟨false, true⟩

/-- How a run of the retry loop of Post ended. exhausted means the
supplied iteration trace ran out before the loop returned (an actual run
of the loop never does: the environment always answers). -/
inductive PostResult where
  | ok
  | maxRetriesExceeded
  | ctxCanceled
  | exhausted
  deriving DecidableEq

/-- The retry loop of Post (src/http.go lines 95-122) over a trace of
iteration outcomes, returning how it ended and how many doPost attempts
it made. Each consumed PostIter is one doPost call; the checks mirror
the source order: success first, then the attempt-counter guard
(attempt greater than maxRetries), then the select between ctx.Done()
and the delay timer, then the counter increment. -/
def postLoop (maxRetries : Int) : Int → List PostIter → PostResult × Nat
  | _, [] => (.exhausted, 0)
  | attempt, it :: rest =>
    if it.attemptOk then (.ok, 1)
    else if attempt > maxRetries then (.maxRetriesExceeded, 1)
    else if it.cancelled then (.ctxCanceled, 1)
    else
      let r := postLoop maxRetries (attempt + 1) rest
      (r.1, r.2 + 1)

/-- The HttpResult response envelope (src/http.go lines 17-21); the
opaque json.RawMessage data payload is modelled as a String of bytes. -/
structure HttpResult where
  status : String
  code : Int
  data : String

/-- Outcome of a json.Unmarshal call: success, the io.EOF sentinel
(special-cased by doPost when decoding the data field), or any other
decode error. -/
inductive JsonOutcome (α : Type) where
  | ok (a : α)
  | eofErr
  | err (msg : String)

/-- The response-handling tail of doPost (src/http.go lines 163-185),
from the point the response status and body are in hand: reject any
status outside [200, 300); complete with nil when the response slot is
nil or the status is 204 (no content); otherwise unmarshal the body as
an HttpResult and unmarshal its data field into the slot, treating an
io.EOF from the second unmarshal as success. The two unmarshal calls
are passed in as decoder functions over the body bytes. -/
def doPostRespond {α : Type} (statusCode : Int) (body : String) (hasSlot : Bool)
    (decodeEnvelope : String → JsonOutcome HttpResult)
    (decodeData : String → JsonOutcome α) : Except String (Option α) :=
  if statusCode < 200 ∨ 300 ≤ statusCode then
    .error "unexpected status code"
  else if hasSlot = false ∨ statusCode = 204 then
    .ok none
  else
    match decodeEnvelope body with
    | .ok result =>
      match decodeData result.data with
      | .ok v => .ok (some v)
      | .eofErr => .ok none
      | .err _ => .error "failed to decode response"
    | .eofErr => .error "failed to decode response"
    | .err _ => .error "failed to decode response"

/-! ### src/bot.go: raw events, the receive decode step, the dispatcher -/

/-- The wire-level raw event envelope (milky_types.RawEvent): type
identifier, owning account, unix time, opaque payload bytes (String). -/
structure RawEvent where
  eventType : String
  selfId : Int
  time : Int
  data : String
  deriving DecidableEq

/-- The zero value of RawEvent, as Go initialises the local variable of
the receive loop before json.Unmarshal runs. -/
def zeroRawEvent : RawEvent := { eventType := "", selfId := 0, time := 0, data := "" }

/-- The decode-and-push step of WebsocketEventSource.receive for one
frame's message bytes (src/bot.go lines 403-412): the rawEvent variable
starts at its zero value, json.Unmarshal fills it on success (none
models a failed unmarshal, which for rejected input leaves the
zero-initialised variable unchanged), the failure branch only logs, and
the event is then sent on eventChan unconditionally. The returned list
is what this frame pushes onto the event channel. -/
def receiveFrame (unmarshalRawEvent : String → Option RawEvent)
    (messageBytes : String) : List RawEvent :=
  let rawEvent := (unmarshalRawEvent messageBytes).getD zeroRawEvent
  [rawEvent]

/-- An entry of the event registry (milky_types.Event): it reports its
own type identifier (Type()) and decodes payload bytes into a fresh
typed event (New() followed by json Decode); the decoded typed event is
modelled as an opaque String value, none models a decode error. -/
structure EventProto where
  typeId : String
  decode : String → Option String

/-- A registered event handler (core.EventHandler): its declared event
type identifier (Type()) and an identity distinguishing it. -/
structure EventHandler where
  typeId : String
  handlerId : Nat
  deriving DecidableEq

/-- One handler invocation performed by the dispatch loop: which
handler, the decoded typed event it received, and the original raw
envelope. -/
structure Invocation where
  handlerId : Nat
  event : String
  raw : RawEvent
  deriving DecidableEq

/-- The Bot dispatcher state (src/bot.go lines 15-25): the event
registry, the per-type ordered handler lists (a missing key is the
empty list, as a nil Go slice), and the close-completion channel (nil
until Open runs). -/
structure Bot where
  eventRegistries : String → Option EventProto
  eventHandlers : String → List EventHandler
  closeChan : Option Nat

/-- NewBot (src/bot.go lines 27-39): empty registries, nil closeChan. -/
def NewBot : Bot :=
  { eventRegistries := fun _ => none
    eventHandlers := fun _ => []
    closeChan := none }

/-- The body of Bot.handleEvent for one raw event (src/bot.go lines
64-96): look the type identifier up in eventRegistries (unknown type is
logged and skipped); look the registry entry's own Type() up in
eventHandlers (no handler is logged and skipped); decode the payload
into a fresh typed event (decode failure is logged and skipped); then
invoke every handler in list order with the decoded event and the raw
envelope. The returned list is the sequence of invocations made. -/
def handleOneEvent (b : Bot) (rawEvent : RawEvent) : List Invocation :=
  match b.eventRegistries rawEvent.eventType with
  | none => []
  | some eventRegistry =>
    let handlers := b.eventHandlers eventRegistry.typeId
    if handlers.isEmpty then []
    else
      match eventRegistry.decode rawEvent.data with
      | none => []
      | some event =>
        handlers.map fun handler =>
          { handlerId := handler.handlerId, event := event, raw := rawEvent }

/-- The error value declared in src/bot.go line 13; no method of the
repository ever returns it (SetEventRegistry has no error result). -/
def ErrEventRegistryAlreadyExists : String := "event registry already exists"

/-- Bot.SetEventRegistry (src/bot.go lines 98-100): unconditional map
store, overwriting any existing entry; the method returns nothing, so
no call can raise ErrEventRegistryAlreadyExists. -/
def SetEventRegistry (b : Bot) (eventType : String) (event : EventProto) : Bot :=
  { b with eventRegistries := fun t => if t = eventType then some event else b.eventRegistries t }

/-- Bot.Handle (src/bot.go lines 102-104): append the handler to the
list keyed by its own declared type identifier. -/
def Handle (b : Bot) (handler : EventHandler) : Bot :=
  { b with eventHandlers := fun t =>
      if t = handler.typeId then b.eventHandlers t ++ [handler] else b.eventHandlers t }

/-- What a call to a Wait method does to its caller, as decided by the
shape of the close channel it reads. -/
inductive WaitBehavior where
  | returnsImmediately
  | blocksUntilClosed (chanId : Nat)
  | blocksForever
  deriving DecidableEq

/-- Bot.Wait (src/bot.go lines 57-62): an explicit nil check returns at
once when the bot was never opened; otherwise it receives from the
close channel, blocking until that channel is closed or sent on. -/
def botWait (b : Bot) : WaitBehavior :=
  match b.closeChan with
  | none => .returnsImmediately
  | some c => .blocksUntilClosed c

/-! ### src/bot.go: the websocket event source -/

/-- The error value declared in src/bot.go line 262. -/
def ErrAlreadyConnected : String := "already connected"

/-- The connection-identity state of WebsocketEventSource (src/bot.go
lines 264-276): the connection handle and the two channels, each nil
until Open succeeds; handles and channels are modelled by Nat
identities. -/
structure WebsocketEventSource where
  wsConn : Option Nat
  eventChan : Option Nat
  closeChan : Option Nat
  deriving DecidableEq

/-- NewWebsocketEventSource (src/bot.go lines 278-290): everything nil. -/
def NewWebsocketEventSource : WebsocketEventSource :=
  { wsConn := none, eventChan := none, closeChan := none }

/-- WebsocketEventSource.Open (src/bot.go lines 297-324): under the
lock, fail with ErrAlreadyConnected when a connection handle is already
present, leaving the state untouched; otherwise dial (dialResult stands
for the dialer's outcome), and on success install the new handle, a
fresh event channel and a fresh close channel, returning the event
channel. -/
def wsOpen (w : WebsocketEventSource) (dialResult : Except String Nat)
    (newEventChan newCloseChan : Nat) : Except String Nat × WebsocketEventSource :=
  match w.wsConn with
  | some _ => (.error ErrAlreadyConnected, w)
  | none =>
    match dialResult with
    | .error e => (.error e, w)
    | .ok conn =>
      (.ok newEventChan,
       { wsConn := some conn, eventChan := some newEventChan, closeChan := some newCloseChan })

/-- WebsocketEventSource.Wait (src/bot.go lines 292-294): an unguarded
receive from closeChan; in Go a receive from a nil channel blocks
forever, so the never-opened state blocks the caller indefinitely. -/
def wsWait (w : WebsocketEventSource) : WaitBehavior :=
  match w.closeChan with
  | none => .blocksForever
  | some c => .blocksUntilClosed c

/-! ### src/unnamed/part_001: the segment builder -/

/-- A message segment (milky_types.Segment): a type tag and opaque
payload bytes. -/
structure Segment where
  segType : String
  data : String
  deriving DecidableEq

/-- The SegmentBuilder state (src/unnamed/part_001 lines 10-13). -/
structure SegmentBuilder where
  segments : List Segment
  error : Option String
  deriving DecidableEq

/-- NewSegmentBuilder (src/unnamed/part_001 lines 15-19). -/
def NewSegmentBuilder : SegmentBuilder := { segments := [], error := none }

/-- SegmentBuilder.Append (src/unnamed/part_001 lines 21-31): once an
error is stored every call is a no-op; a call carrying an error stores
it; otherwise the segment is appended. -/
def SegmentBuilder.Append (sb : SegmentBuilder) (segment : Segment)
    (err : Option String) : SegmentBuilder :=
  match sb.error with
  | some _ => sb
  | none =>
    match err with
    | some e => { sb with error := some e }
    | none => { sb with segments := sb.segments ++ [segment] }

/-- SegmentBuilder.Build (src/unnamed/part_001 lines 77-82): the stored
error (with a nil segment list) if any, else the accumulated segments. -/
def SegmentBuilder.Build (sb : SegmentBuilder) : Except String (List Segment) :=
  match sb.error with
  | some e => .error e
  | none => .ok sb.segments

/-- A whole builder session: fold a sequence of Append calls (each the
segment and error produced by one of the wrapper constructors such as
Text or Mention, which all funnel through Append) over a fresh
builder. -/
def runCalls (calls : List (Segment × Option String)) : SegmentBuilder :=
  calls.foldl (fun sb c => sb.Append c.1 c.2) NewSegmentBuilder

/-! ### Helper lemmas for the retry loop -/

/-- A failing, uncancelled iteration whose counter has not yet passed
maxRetries consumes one attempt and hands the loop on with the counter
bumped. -/
theorem postLoop_fail_step (maxRetries attempt : Int) (rest : List PostIter)
    (h : attempt ≤ maxRetries) :
    postLoop maxRetries attempt (failIter :: rest) =
      ((postLoop maxRetries (attempt + 1) rest).1,
       (postLoop maxRetries (attempt + 1) rest).2 + 1) := by
  simp [postLoop, failIter, not_lt.mpr h]

/-- Running the loop across a block of failing, uncancelled iterations
whose counters all stay within maxRetries adds the block's length to
the attempt count of whatever the loop does next. -/
theorem postLoop_replicate_fail (k : Nat) : ∀ (maxRetries attempt : Int)
    (rest : List PostIter), (∀ i : Nat, i < k → attempt + i ≤ maxRetries) →
    postLoop maxRetries attempt (List.replicate k failIter ++ rest) =
      ((postLoop maxRetries (attempt + k) rest).1,
       (postLoop maxRetries (attempt + k) rest).2 + k) := by
  induction k with
  | zero => intro maxRetries attempt rest _; simp
  | succ n ih =>
    intro maxRetries attempt rest h
    have h0 : attempt ≤ maxRetries := by simpa using h 0 (Nat.succ_pos n)
    rw [List.replicate_succ, List.cons_append, postLoop_fail_step _ _ _ h0,
      ih maxRetries (attempt + 1) rest (fun i hi => by
        have := h (i + 1) (by omega); omega)]
    have hc : attempt + 1 + (n : Int) = attempt + ((n + 1 : Nat) : Int) := by push_cast; ring
    rw [hc]
    simp [Nat.add_assoc]

/-- wrap64 is the identity on values already representable in a signed
64-bit integer. -/
theorem wrap64_eq_self (x : Int) (h1 : -(2 ^ 63) ≤ x) (h2 : x < 2 ^ 63) :
    wrap64 x = x := by
  have hmod : (x + 2 ^ 63) % 2 ^ 64 = x + 2 ^ 63 := by
    apply Int.emod_eq_of_lt
    · norm_num at h1 ⊢; omega
    · norm_num at h2 ⊢; omega
  show (x + 2 ^ 63) % 2 ^ 64 - 2 ^ 63 = x
  rw [hmod]; ring

/-! ### The claims -/

/-- Claim C4: under the defaults of NewHttpClient, the inter-attempt
delay computed for a failed attempt with counter a (the counters at
which Post waits out a delay are 0..maxRetries, so a is at most 5) and
jitter j drawn from [0, maxRetryJitter) equals
min(maxRetryDelay, baseRetryDelay * 2 ^ a + j): the int64 arithmetic
never wraps at these magnitudes, so the Go expression agrees with the
exact formula. -/
theorem post_retry_delay_formula (a : Nat) (j : Int) (ha : a ≤ 5)
    (hj0 : 0 ≤ j) (hj : j < NewHttpClient.maxRetryJitter) :
    retryDelay NewHttpClient a j =
      min NewHttpClient.maxRetryDelay (NewHttpClient.baseRetryDelay * 2 ^ a + j) := by
  have hj' : j < 100000000 := by
    simpa [NewHttpClient, millisecond] using hj
  have hp0 : (0 : Int) ≤ 2 ^ a := pow_nonneg (by norm_num) a
  have hp : (2 : Int) ^ a ≤ 32 := by
    calc (2 : Int) ^ a ≤ 2 ^ 5 := pow_le_pow_right₀ (by norm_num) ha
    _ = 32 := by norm_num
  have w1 : wrap64 ((2 : Int) ^ a) = 2 ^ a :=
    wrap64_eq_self _ (le_trans (by norm_num) hp0) (lt_of_le_of_lt hp (by norm_num))
  have hm0 : (0 : Int) ≤ 100000000 * 2 ^ a := by positivity
  have hm : (100000000 : Int) * 2 ^ a ≤ 3200000000 := by
    have := mul_le_mul_of_nonneg_left hp (by norm_num : (0 : Int) ≤ 100000000)
    linarith
  have w2 : wrap64 ((100000000 : Int) * 2 ^ a) = 100000000 * 2 ^ a :=
    wrap64_eq_self _ (le_trans (by norm_num) hm0) (lt_of_le_of_lt hm (by norm_num))
  have hs0 : (0 : Int) ≤ 100000000 * 2 ^ a + j := add_nonneg hm0 hj0
  have hs1 : (100000000 : Int) * 2 ^ a + j < 2 ^ 63 := by
    have h63 : (3300000000 : Int) < 2 ^ 63 := by norm_num
    linarith
  have w3 : wrap64 ((100000000 : Int) * 2 ^ a + j) = 100000000 * 2 ^ a + j :=
    wrap64_eq_self _ (le_trans (by norm_num) hs0) hs1
  simp only [retryDelay, NewHttpClient, millisecond, second]
  norm_num
  rw [w1, w2, w3, min_comm]

/-- Witness for post_retry_delay_formula at attempt 3 with jitter 7. -/
theorem post_retry_delay_formula_witness :
    retryDelay NewHttpClient 3 7 =
      min NewHttpClient.maxRetryDelay (NewHttpClient.baseRetryDelay * 2 ^ 3 + 7) :=
  post_retry_delay_formula 3 7 (by decide) (by decide) (by decide)

/-- Claim C5: a command attempt succeeds only when the status code lies
in [200, 300); in that range, with a response slot and a status other
than 204, the body is unwrapped as an HttpResult envelope and the
envelope's data field is decoded into the slot; a 204 status or a nil
slot completes with nil error for every pair of decoders, so the
envelope is never touched. -/
theorem doPost_status_decode_semantics :
    (∀ (α : Type) (statusCode : Int) (body : String) (hasSlot : Bool)
        (dE : String → JsonOutcome HttpResult) (dD : String → JsonOutcome α)
        (r : Option α),
        doPostRespond statusCode body hasSlot dE dD = Except.ok r →
        200 ≤ statusCode ∧ statusCode < 300) ∧
    (∀ (α : Type) (statusCode : Int) (body : String)
        (dE : String → JsonOutcome HttpResult) (dD : String → JsonOutcome α)
        (envelope : HttpResult) (v : α),
        200 ≤ statusCode → statusCode < 300 → statusCode ≠ 204 → body ≠ "" →
        dE body = JsonOutcome.ok envelope → dD envelope.data = JsonOutcome.ok v →
        doPostRespond statusCode body true dE dD = Except.ok (some v)) ∧
    (∀ (α : Type) (statusCode : Int) (body : String) (hasSlot : Bool)
        (dE : String → JsonOutcome HttpResult) (dD : String → JsonOutcome α),
        200 ≤ statusCode → statusCode < 300 →
        (statusCode = 204 ∨ hasSlot = false) →
        doPostRespond statusCode body hasSlot dE dD = Except.ok none) := by
  refine ⟨?_, ?_, ?_⟩
  · intro α statusCode body hasSlot dE dD r h
    by_cases h1 : statusCode < 200 ∨ 300 ≤ statusCode
    · simp [doPostRespond, h1] at h
    · push_neg at h1
      omega
  · intro α statusCode body dE dD envelope v hlo hhi h204 hbody hE hD
    have h1 : ¬ (statusCode < 200 ∨ 300 ≤ statusCode) := by omega
    simp [doPostRespond, h1, h204, hE, hD]
  · intro α statusCode body hasSlot dE dD hlo hhi hshort
    have h1 : ¬ (statusCode < 200 ∨ 300 ≤ statusCode) := by omega
    rcases hshort with h204 | hslot
    · simp [doPostRespond, h1, h204]
    · simp [doPostRespond, h1, hslot]

/-- Claim C7: a WebsocketEventSource that already holds a connection
handle has Open fail with ErrAlreadyConnected and return the state
unchanged: the handle, the event channel and the close channel are
exactly what they were, whatever the dialer would have produced. -/
theorem wsOpen_already_connected (w : WebsocketEventSource) (c : Nat)
    (dialResult : Except String Nat) (newEventChan newCloseChan : Nat)
    (hconn : w.wsConn = some c) :
    wsOpen w dialResult newEventChan newCloseChan = (Except.error ErrAlreadyConnected, w) := by
  unfold wsOpen
  rw [hconn]

/-- Witness for wsOpen_already_connected: an open source with handle 1
and live channels 2 and 3, a dialer that would have succeeded. -/
theorem wsOpen_already_connected_witness :
    wsOpen { wsConn := some 1, eventChan := some 2, closeChan := some 3 }
        (Except.ok 9) 4 5 =
      (Except.error ErrAlreadyConnected,
       { wsConn := some 1, eventChan := some 2, closeChan := some 3 }) :=
  wsOpen_already_connected _ 1 _ 4 5 rfl

/-- Claim C9: a second SetEventRegistry call with the same identifier
silently overwrites the first (the registry afterwards maps the
identifier to the second prototype), and the call changes no other key;
the function, mirroring the Go method, has no error result at all, so
ErrEventRegistryAlreadyExists is never raised by any call. -/
theorem setEventRegistry_silently_overwrites :
    (∀ (b : Bot) (t : String) (e1 e2 : EventProto),
        (SetEventRegistry (SetEventRegistry b t e1) t e2).eventRegistries t = some e2) ∧
    (∀ (b : Bot) (t u : String) (e : EventProto), u ≠ t →
        (SetEventRegistry b t e).eventRegistries u = b.eventRegistries u) := by
  constructor
  · intro b t e1 e2
    simp [SetEventRegistry]
  · intro b t u e h
    simp [SetEventRegistry, h]

/-- An Append on a builder whose error is already set is the identity. -/
theorem append_after_error (sb : SegmentBuilder) (e : String) (s : Segment)
    (r : Option String) (h : sb.error = some e) : sb.Append s r = sb := by
  unfold SegmentBuilder.Append
  rw [h]

/-- A whole tail of Append calls on a builder whose error is already
set is the identity. -/
theorem foldl_append_after_error (calls : List (Segment × Option String)) :
    ∀ (sb : SegmentBuilder) (e : String), sb.error = some e →
    calls.foldl (fun sb c => sb.Append c.1 c.2) sb = sb := by
  induction calls with
  | nil => intro sb e _; rfl
  | cons c rest ih =>
    intro sb e h
    rw [List.foldl_cons, append_after_error sb e c.1 c.2 h]
    exact ih sb e h

/-- Build after a run of Append calls from any error-free builder: the
first error carried by a call wins and yields that error; with no
erring call, the segments of every call land behind the starting
segments, in call order. -/
theorem build_foldl_append (calls : List (Segment × Option String)) :
    ∀ sb : SegmentBuilder, sb.error = none →
    (calls.foldl (fun sb c => sb.Append c.1 c.2) sb).Build =
      ((calls.filterMap Prod.snd).head?.elim
        (Except.ok (sb.segments ++ calls.map Prod.fst)) Except.error) := by
  induction calls with
  | nil =>
    intro sb h
    simp [SegmentBuilder.Build, h]
  | cons c rest ih =>
    intro sb h
    obtain ⟨s, r⟩ := c
    cases r with
    | none =>
      have hstep : sb.Append s none = { segments := sb.segments ++ [s], error := none } := by
        unfold SegmentBuilder.Append
        rw [h]
      rw [List.foldl_cons]
      simp only at hstep
      rw [hstep, ih _ rfl]
      simp
    | some e =>
      have hstep : sb.Append s (some e) = { sb with error := some e } := by
        unfold SegmentBuilder.Append
        rw [h]
      rw [List.foldl_cons]
      simp only at hstep
      rw [hstep, foldl_append_after_error rest _ e rfl]
      simp [SegmentBuilder.Build]

/-- Claim C10: the SegmentBuilder is first-error-wins. Once a call has
recorded an error, every later Append leaves the builder (segments and
stored error) unchanged; a session whose first carried error is e has
Build return that error (and no segments); a session with no erring
call has Build return exactly the appended segments in call order with
nil error. -/
theorem segmentBuilder_first_error_wins :
    (∀ (sb : SegmentBuilder) (e : String) (s : Segment) (r : Option String),
        sb.error = some e → sb.Append s r = sb) ∧
    (∀ (calls : List (Segment × Option String)) (e : String),
        (calls.filterMap Prod.snd).head? = some e →
        (runCalls calls).Build = Except.error e) ∧
    (∀ calls : List (Segment × Option String),
        calls.filterMap Prod.snd = [] →
        (runCalls calls).Build = Except.ok (calls.map Prod.fst)) := by
  refine ⟨fun sb e s r h => append_after_error sb e s r h, ?_, ?_⟩
  · intro calls e h
    rw [runCalls, build_foldl_append calls NewSegmentBuilder rfl, h]
    rfl
  · intro calls h
    rw [runCalls, build_foldl_append calls NewSegmentBuilder rfl, h]
    rfl

/-- Handle leaves the event registry untouched, over any sequence of
registrations. -/
theorem foldl_Handle_eventRegistries (hs : List EventHandler) :
    ∀ b : Bot, (hs.foldl Handle b).eventRegistries = b.eventRegistries := by
  induction hs with
  | nil => intro b; rfl
  | cons hd rest ih =>
    intro b
    rw [List.foldl_cons, ih]
    rfl

/-- Registering a sequence of handlers appends, per type, exactly the
handlers declaring that type, in registration order. -/
theorem foldl_Handle_eventHandlers (hs : List EventHandler) :
    ∀ (b : Bot) (t : String), (hs.foldl Handle b).eventHandlers t =
      b.eventHandlers t ++ hs.filter (fun h => h.typeId == t) := by
  induction hs with
  | nil => intro b t; simp
  | cons hd rest ih =>
    intro b t
    rw [List.foldl_cons, ih]
    by_cases hts : t = hd.typeId
    · have hb : (hd.typeId == t) = true := by simp [hts]
      simp [Handle, hts, List.filter_cons, hb]
    · have hb : (hd.typeId == t) = false := by
        simp
        exact fun hh => hts hh.symm
      simp [Handle, hts, List.filter_cons, hb]

/-- Claim C3: dispatching a raw event whose type is registered (with a
prototype reporting that same type identifier) runs, after registering
the handlers hs for that type through Handle on a bot with no prior
handlers for it, every handler exactly once, in registration order,
each invocation receiving the freshly decoded typed event together
with the original raw envelope. -/
theorem handleEvent_invokes_in_registration_order (b₀ : Bot) (hs : List EventHandler)
    (rawEvent : RawEvent) (proto : EventProto) (event : String)
    (hreg : b₀.eventRegistries rawEvent.eventType = some proto)
    (hty : proto.typeId = rawEvent.eventType)
    (hnoprior : b₀.eventHandlers rawEvent.eventType = [])
    (hfor : ∀ h ∈ hs, h.typeId = rawEvent.eventType)
    (hne : hs ≠ [])
    (hdec : proto.decode rawEvent.data = some event) :
    handleOneEvent (hs.foldl Handle b₀) rawEvent =
      hs.map fun h => { handlerId := h.handlerId, event := event, raw := rawEvent } := by
  have hfilter : hs.filter (fun h => h.typeId == rawEvent.eventType) = hs := by
    rw [List.filter_eq_self]
    intro h hmem
    simp [hfor h hmem]
  have hempty : hs.isEmpty = false := by
    cases hs with
    | nil => exact absurd rfl hne
    | cons _ _ => rfl
  unfold handleOneEvent
  rw [foldl_Handle_eventRegistries hs b₀, hreg]
  simp only
  rw [foldl_Handle_eventHandlers hs b₀ proto.typeId, hty, hnoprior, List.nil_append, hfilter]
  simp [hempty, hdec]

/-- Witness for handleEvent_invokes_in_registration_order: one
registered type, two handlers registered for it in order, a raw event
that decodes. -/
theorem handleEvent_invokes_in_registration_order_witness :
    handleOneEvent
      (List.foldl Handle
        { eventRegistries := fun t =>
            if t = "m" then some { typeId := "m", decode := fun d => some d } else none
          eventHandlers := fun _ => []
          closeChan := none }
        [{ typeId := "m", handlerId := 1 }, { typeId := "m", handlerId := 2 }])
      { eventType := "m", selfId := 1, time := 1000, data := "hi" } =
      [{ handlerId := 1, event := "hi",
         raw := { eventType := "m", selfId := 1, time := 1000, data := "hi" } },
       { handlerId := 2, event := "hi",
         raw := { eventType := "m", selfId := 1, time := 1000, data := "hi" } }] :=
  handleEvent_invokes_in_registration_order
    { eventRegistries := fun t =>
        if t = "m" then some { typeId := "m", decode := fun d => some d } else none
      eventHandlers := fun _ => []
      closeChan := none }
    [{ typeId := "m", handlerId := 1 }, { typeId := "m", handlerId := 2 }]
    { eventType := "m", selfId := 1, time := 1000, data := "hi" }
    { typeId := "m", decode := fun d => some d } "hi"
    rfl rfl rfl (by decide) (by decide) rfl

/-- Claim C1, counterexample: with the default maxRetries = 5, an
endpoint that always fails makes the loop perform 7 doPost attempts
before the terminal max-retries-exceeded error, not maxRetries + 1 = 6
as the claim states. -/
theorem post_maxRetries_attempts_cex :
    postLoop NewHttpClient.maxRetries 0 (List.replicate 7 failIter) =
      (PostResult.maxRetriesExceeded, 7) ∧
    (7 : Nat) ≠ NewHttpClient.maxRetries.toNat + 1 := by
  constructor
  · decide
  · decide

/-- Claim C1, amended: for every endpoint whose attempts all fail, Post
returns the terminal max-retries-exceeded error after exactly
maxRetries + 2 attempts (7 under the default maxRetries = 5): the
counter starts at 0 and increments after each failed attempt, and the
loop returns the terminal error on the first failed attempt made after
the counter has exceeded the maximum. -/
theorem post_allFail_attempt_count (m : Nat) (rest : List PostIter) :
    postLoop (m : Int) 0 (List.replicate (m + 2) failIter ++ rest) =
      (PostResult.maxRetriesExceeded, m + 2) := by
  have hsplit : List.replicate (m + 2) failIter ++ rest =
      List.replicate (m + 1) failIter ++ (failIter :: rest) := by
    rw [show m + 2 = (m + 1) + 1 from rfl, List.replicate_succ' (m + 1)]
    simp
  rw [hsplit, postLoop_replicate_fail (m + 1) _ 0 _ (fun i hi => by omega)]
  have hgt : (m : Int) < 0 + ((m + 1 : Nat) : Int) := by push_cast; omega
  simp only [postLoop, failIter, Bool.false_eq_true, if_false, gt_iff_lt, hgt, if_true]
  simp
  omega

/-- Claim C6: if the caller's context is cancelled during the backoff
delay that follows the (k+1)-st failed attempt (a delay is only waited
out while the counter is still within maxRetries), Post returns the
cancellation error having made exactly k + 1 attempts, whatever further
iterations the environment could have supplied: the next attempt is
never performed. -/
theorem post_cancel_during_delay (m k : Nat) (rest : List PostIter) (hk : k ≤ m) :
    postLoop (m : Int) 0 (List.replicate k failIter ++ cancelIter :: rest) =
      (PostResult.ctxCanceled, k + 1) := by
  rw [postLoop_replicate_fail k _ 0 _ (fun i hi => by omega)]
  have hle : ¬ (m < k) := by omega
  simp [postLoop, cancelIter, hle]
  omega

/-- Witness for post_cancel_during_delay: default maxRetries 5,
cancellation during the delay after the third failed attempt. -/
theorem post_cancel_during_delay_witness :
    postLoop ((5 : Nat) : Int) 0 (List.replicate 2 failIter ++ cancelIter :: [failIter]) =
      (PostResult.ctxCanceled, 3) :=
  post_cancel_during_delay 5 2 [failIter] (by decide)

/-- Claim C2: at a frame whose bytes fail to decode as a RawEvent (the
unmarshal returns an error for every input here, as it does for bytes
that are not JSON), the receive step still pushes the zero-valued
RawEvent onto the event channel: the frame is logged but not dropped,
because the decode-failure branch of the source only logs and falls
through to the channel send. -/
theorem receive_decode_failure_pushes_zero_event :
    receiveFrame (fun _ => none) "not json" = [zeroRawEvent] ∧
    receiveFrame (fun _ => none) "not json" ≠ [] := by
  constructor
  · rfl
  · decide

/-- Claim C8, counterexample: a never-opened WebsocketEventSource (as
NewWebsocketEventSource builds it, closeChan nil) has Wait receive from
a nil channel, which blocks the caller forever rather than returning. -/
theorem wsWait_never_opened_blocks_cex :
    wsWait NewWebsocketEventSource = WaitBehavior.blocksForever ∧
    WaitBehavior.blocksForever ≠ WaitBehavior.returnsImmediately := by
  constructor
  · rfl
  · decide

/-- Claim C8, amended: in the never-opened state Bot.Wait returns to the
caller at once (its explicit nil check), while WebsocketEventSource.Wait
blocks the caller forever on its nil close channel; the claimed
termination holds only for Bot.Wait. -/
theorem wait_never_opened_behavior :
    botWait NewBot = WaitBehavior.returnsImmediately ∧
    wsWait NewWebsocketEventSource = WaitBehavior.blocksForever := by
  exact ⟨rfl, rfl⟩

end EmiTransport
